import Mathlib

/-!
Verification of the backup lifecycle engine
(`5-backup-automation/backup_manager`): a shallow embedding of
`retention.py`, `manager.py`, `verifier.py` and the parts of `models.py`
they use, together with theorems about the retention algorithm, the
backup creation/restore flows, cleanup, and verification.

Conventions of the embedding:
 * `datetime` values are modelled as `Int` epoch seconds; `datetime.now()`
   becomes an explicit `now` parameter.  The calendar accessors the code
   uses (`.year`, `.month`, `.isocalendar()[1]`) are implemented with the
   standard proleptic-Gregorian civil-date algorithms.
 * Filesystem side effects are modelled either as explicit file lists
   (retention cleanup) or as event traces (manager, restore).
 * Exceptions raised by external I/O are modelled as boolean outcome
   fields of an environment record; `try/except` becomes early return.
 * SHA-256 itself (`hashlib.sha256`, shared by creator and verifier) is
   an abstract `HashAlgo` parameter; the chunked streaming loop around it
   is embedded literally.
-/

namespace BackupEngine

/-! ## Calendar arithmetic

Embedding of the `datetime` accessors used by `retention.py`:
`created_at.year`, `created_at.month`, `created_at.isocalendar()[1]`.
Standard civil-from-days / days-from-civil algorithms; `Int.fdiv` /
`Int.emod` match Python's floor division and modulo. -/

/-- Days since 1970-01-01 of the civil date (y, m, d). -/
def daysFromCivil (y m d : Int) : Int :=
  let y1 := if m ≤ 2 then y - 1 else y
  let era := Int.fdiv y1 400
  let yoe := y1 - era * 400
  let mp := Int.emod (m + 9) 12
  let doy := Int.fdiv (153 * mp + 2) 5 + d - 1
  let doe := yoe * 365 + Int.fdiv yoe 4 - Int.fdiv yoe 100 + doy
  era * 146097 + doe - 719468

/-- Civil date (year, month, day) of a day count since 1970-01-01. -/
def civilFromDays (z0 : Int) : Int × Int × Int :=
  let z := z0 + 719468
  let era := Int.fdiv z 146097
  let doe := z - era * 146097
  let yoe := Int.fdiv (doe - Int.fdiv doe 1460 + Int.fdiv doe 36524 - Int.fdiv doe 146096) 365
  let y := yoe + era * 400
  let doy := doe - (365 * yoe + Int.fdiv yoe 4 - Int.fdiv yoe 100)
  let mp := Int.fdiv (5 * doy + 2) 153
  let d := doy - Int.fdiv (153 * mp + 2) 5 + 1
  let m := mp + (if mp < 10 then 3 else -9)
  (if m ≤ 2 then y + 1 else y, m, d)

/-- Python `datetime.year` of an epoch-second instant. -/
def yearOf (t : Int) : Int := (civilFromDays (Int.fdiv t 86400)).1

/-- Python `datetime.month` of an epoch-second instant. -/
def monthOf (t : Int) : Int := (civilFromDays (Int.fdiv t 86400)).2.1

/-- Number of ISO weeks (52 or 53) in calendar year `y`. -/
def weeksInYear (y : Int) : Int :=
  let p := fun (a : Int) => Int.emod (a + Int.fdiv a 4 - Int.fdiv a 100 + Int.fdiv a 400) 7
  if p y = 4 ∨ p (y - 1) = 3 then 53 else 52

/-- Python `datetime.isocalendar()[1]` (ISO week number) of an instant. -/
def isoWeekOf (t : Int) : Int :=
  let d0 := Int.fdiv t 86400
  let y := (civilFromDays d0).1
  let doy := d0 - daysFromCivil y 1 1 + 1
  let dow := Int.emod (d0 + 3) 7 + 1
  let w := Int.fdiv (doy - dow + 10) 7
  if w < 1 then weeksInYear (y - 1)
  else if weeksInYear y < w then 1
  else w

/-- Python `datetime.isocalendar()[0]` (ISO year) of an instant.  The
source never reads this field; it exists to state the spec's
"(ISO-year, ISO-week)" key for comparison. -/
def isoYearOf (t : Int) : Int :=
  let d0 := Int.fdiv t 86400
  let y := (civilFromDays d0).1
  let doy := d0 - daysFromCivil y 1 1 + 1
  let dow := Int.emod (d0 + 3) 7 + 1
  let w := Int.fdiv (doy - dow + 10) 7
  if w < 1 then y - 1
  else if weeksInYear y < w then y + 1
  else y

/-! ## Data model (`models.py`)

Only the fields read by the verified operations are carried;
the remaining `BackupMetadata` fields (hostname, source_path, ...) are
payload never inspected by `retention.py` / `verifier.py`. -/

/-- `models.BackupStatus`. -/
inductive BackupStatus where
  | pending
  | running
  | completed
  | failed
  | verified
deriving DecidableEq, Repr

/-- `models.RetentionPolicy`; the pydantic validator forces all five
fields to be non-negative, which `Nat` captures. -/
structure RetentionPolicy where
  keep_daily : Nat
  keep_weekly : Nat
  keep_monthly : Nat
  keep_yearly : Nat
  min_backups : Nat
deriving DecidableEq, Repr

/-- `models.BackupMetadata` (the fields consumed by retention and
verification). -/
structure BackupMetadata where
  backup_id : String
  created_at : Int
  config_name : String
  size_bytes : Nat
  checksum : Option String
deriving DecidableEq, Repr

namespace RetentionManager

/-! ## Retention (`retention.py`) -/

/-- `RetentionManager._get_backups_in_range` (lines 91-112): the set of
ids of backups with `start <= created_at <= stop`. -/
def get_backups_in_range (backups : List BackupMetadata) (start stop : Int) : Finset String :=
  ((backups.filter fun b => decide (start ≤ b.created_at ∧ b.created_at ≤ stop)).map
    fun b => b.backup_id).toFinset

/-- Python `if key not in dict: dict[key] = value` on an association
list (insertion order preserved, first writer wins). -/
def insertIfAbsent {κ : Type} [DecidableEq κ] (k : κ) (v : String)
    (m : List (κ × String)) : List (κ × String) :=
  if m.any fun p => decide (p.1 = k) then m else m ++ [(k, v)]

/-- Shared loop of `_get_weekly_backups` / `_get_monthly_backups` /
`_get_yearly_backups` (lines 114-197), which are verbatim clones
differing only in the bucketing key: iterate the list in order, and for
each in-range backup record its id under its key unless the key is
already taken. -/
def bucketAux {κ : Type} [DecidableEq κ] (key : Int → κ) (start stop : Int) :
    List BackupMetadata → List (κ × String) → List (κ × String)
  | [], m => m
  | b :: rest, m =>
      bucketAux key start stop rest
        (if start ≤ b.created_at ∧ b.created_at ≤ stop then
          insertIfAbsent (key b.created_at) b.backup_id m
        else m)

/-- `RetentionManager._get_weekly_backups` (lines 114-143): key is
`(created_at.year, created_at.isocalendar()[1])` — the calendar year
paired with the ISO week number. -/
def get_weekly_backups (backups : List BackupMetadata) (start stop : Int) : Finset String :=
  ((bucketAux (fun t => (yearOf t, isoWeekOf t)) start stop backups []).map
    fun p => p.2).toFinset

/-- `RetentionManager._get_monthly_backups` (lines 145-170): key is
`(created_at.year, created_at.month)`. -/
def get_monthly_backups (backups : List BackupMetadata) (start stop : Int) : Finset String :=
  ((bucketAux (fun t => (yearOf t, monthOf t)) start stop backups []).map
    fun p => p.2).toFinset

/-- `RetentionManager._get_yearly_backups` (lines 172-197): key is
`created_at.year`. -/
def get_yearly_backups (backups : List BackupMetadata) (start stop : Int) : Finset String :=
  ((bucketAux yearOf start stop backups []).map fun p => p.2).toFinset

/-- `RetentionManager.apply_retention` (lines 33-89).  `now` is the
`datetime.now()` read at line 51; the `dry_run` parameter of the source
is unused by the function and omitted.  Returns (keep, delete). -/
def apply_retention (policy : RetentionPolicy) (now : Int)
    (backups : List BackupMetadata) : List BackupMetadata × List BackupMetadata :=
  if backups.length ≤ policy.min_backups then (backups, [])
  else
    let daily_cutoff := now - 86400 * (policy.keep_daily : Int)
    let keep1 := get_backups_in_range backups daily_cutoff now
    let weekly_cutoff := now - 604800 * (policy.keep_weekly : Int)
    let keep2 := keep1 ∪ get_weekly_backups backups weekly_cutoff daily_cutoff
    let monthly_cutoff := now - 86400 * 30 * (policy.keep_monthly : Int)
    let keep3 := keep2 ∪ get_monthly_backups backups monthly_cutoff weekly_cutoff
    let yearly_cutoff := now - 86400 * 365 * (policy.keep_yearly : Int)
    let keep4 := keep3 ∪ get_yearly_backups backups yearly_cutoff monthly_cutoff
    let to_keep :=
      if keep4.card < policy.min_backups then
        keep4 ∪ ((backups.take policy.min_backups).map fun b => b.backup_id).toFinset
      else keep4
    (backups.filter fun b => decide (b.backup_id ∈ to_keep),
     backups.filter fun b => decide (b.backup_id ∉ to_keep))

end RetentionManager

/-! ## Filesystem model for retention cleanup

A filename is its dot-separated components (`"data.tar.gz"` is
`["data", "tar", "gz"]`), which makes `pathlib`'s `suffix` /
`with_suffix` arithmetic explicit.  A directory scan result is a list of
files in `rglob` order; `meta` is the result of JSON-parsing the file as
a `BackupMetadata` (`none` when the parse raises). -/

/-- One file under the backup directory. -/
structure FSFile where
  name : List String
  size : Nat
  meta : Option BackupMetadata
deriving DecidableEq, Repr

/-- Python `Path.suffix` on a dot-separated filename: the last
dot-component when there is one. -/
def pathSuffix (n : List String) : String :=
  if n.length ≥ 2 then "." ++ n.getLastD "" else ""

/-- Python `Path.with_suffix("")`: drop the last suffix if present. -/
def dropPathSuffix (n : List String) : List String :=
  if n.length ≥ 2 then n.dropLast else n

/-- Does the filename match the `rglob("*.json")` scan? -/
def isJsonName (n : List String) : Bool :=
  n.length ≥ 2 && n.getLastD "" == "json"

namespace RetentionManager

/-- `RetentionManager._find_backup_file` (retention.py lines 260-287):
scan sidecar files for the one whose metadata carries `backup_id`, then
reconstruct the archive name from the sidecar name by suffix surgery.
(Note the `.tar.gz` branch returns `backup_file.with_suffix("")`, which
drops the `.gz`.) -/
def find_backup_file (files : List FSFile) (backup_id : String) : Option (List String) :=
  files.findSome? fun f =>
    if isJsonName f.name then
      match f.meta with
      | some md =>
        if md.backup_id == backup_id then
          let backup_file := dropPathSuffix f.name
          if pathSuffix backup_file == ".tar" then some backup_file
          else if pathSuffix (dropPathSuffix backup_file) == ".tar" then
            some (dropPathSuffix backup_file)
          else some backup_file
        else none
      | none => none
    else none

/-- Catalog scan of `cleanup_old_backups` (retention.py lines 216-230):
collect parseable sidecars, filter by config name, sort newest first. -/
def scan_catalog (files : List FSFile) (config_name : Option String) : List BackupMetadata :=
  let backups := files.filterMap fun f =>
    if isJsonName f.name then
      match f.meta with
      | some md =>
        if config_name = none ∨ config_name = some md.config_name then some md else none
      | none => none
    else none
  backups.insertionSort fun a b => b.created_at ≤ a.created_at

/-- Metadata-file path computed at retention.py line 249:
`backup_file.with_suffix(backup_file.suffix + ".json")`, which for any
name equals appending a `json` component. -/
def sidecarNameOf (backup_file : List String) : List String := backup_file ++ ["json"]

/-- Result dictionary of `cleanup_old_backups` (lines 253-258). -/
structure CleanupStats where
  kept : Nat
  deleted : Nat
  would_delete : Nat
  total_size_freed : Nat
deriving DecidableEq, Repr

/-- Deletion loop of `cleanup_old_backups` (lines 240-251), threading
the live directory contents plus the `deleted_count` and
`total_size_freed` accumulators.  When `_find_backup_file` returns
`None`, line 249 dereferences it and the call raises `AttributeError`;
that propagates as `Except.error`. -/
def cleanup_loop : List BackupMetadata → List FSFile → Nat → Nat →
    Except String (List FSFile × Nat × Nat)
  | [], files, deleted_count, total_size_freed =>
      .ok (files, deleted_count, total_size_freed)
  | md :: rest, files, deleted_count, total_size_freed =>
    match find_backup_file files md.backup_id with
    | none => .error "AttributeError"
    | some backup_file =>
      let present := files.any fun f => f.name == backup_file
      let sz := match files.find? fun f => f.name == backup_file with
        | some f => f.size
        | none => 0
      let files1 := if present then files.eraseP fun f => f.name == backup_file else files
      let metadata_file := sidecarNameOf backup_file
      let files2 := if files1.any fun f => f.name == metadata_file then
          files1.eraseP fun f => f.name == metadata_file
        else files1
      cleanup_loop rest files2
        (if present then deleted_count + 1 else deleted_count)
        (if present then total_size_freed + sz else total_size_freed)

/-- `RetentionManager.cleanup_old_backups` (lines 199-258).  Note the
returned `deleted` count is `len(to_delete)` (line 255), not the number
of files actually unlinked. -/
def cleanup_old_backups (policy : RetentionPolicy) (now : Int) (files : List FSFile)
    (config_name : Option String) (dry_run : Bool) :
    Except String (List FSFile × CleanupStats) :=
  let backups := scan_catalog files config_name
  let r := apply_retention policy now backups
  if dry_run then
    .ok (files,
      { kept := r.1.length, deleted := 0, would_delete := r.2.length,
        total_size_freed := 0 })
  else
    match cleanup_loop r.2 files 0 0 with
    | .error e => .error e
    | .ok out =>
      .ok (out.1,
        { kept := r.1.length, deleted := r.2.length, would_delete := 0,
          total_size_freed := out.2.2 })

end RetentionManager

/-! ## Backup manager (`manager.py`)

`create_backup` is embedded as a function from a configuration and an
outcome environment (which effectful step succeeds) to the returned
result and the ordered trace of filesystem/subprocess events it
performed.  Exceptions raised by a step make the `try` body jump to the
`except` handler at lines 107-116. -/

/-- The slice of `models.BackupConfig` that `create_backup` reads. -/
structure BackupConfig where
  name : String
  destination : String
  compression : Bool
  has_pre_script : Bool
  has_post_script : Bool
deriving DecidableEq, Repr

/-- Outcomes of the effectful steps of one `create_backup` run: does the
hook subprocess exit cleanly, does archive construction complete, does
metadata persistence (checksum read + write) complete. -/
structure RunEnv where
  pre_ok : Bool
  archive_ok : Bool
  meta_ok : Bool
  post_ok : Bool
deriving DecidableEq, Repr

/-- Observable events of one `create_backup` run, in program order.
`renameFile` is never emitted by the source (there is no
temp-file-then-rename step); it exists so atomic-persistence can be
stated. -/
inductive MgrEv where
  | runScript (which : String)
  | mkdirParents (dir : String)
  | writeArchive (p : String)
  | writeIncomplete (p : String)
  | writeFile (p : String)
  | renameFile (src dst : String)
deriving DecidableEq, Repr

/-- Is the event a rename? -/
def MgrEv.isRenameEv : MgrEv → Bool
  | .renameFile _ _ => true
  | _ => false

/-- `models.BackupResult` (the fields create_backup populates; `job` is
flattened into `status` and `error_message`). -/
structure BackupResultM where
  success : Bool
  status : BackupStatus
  error_message : Option String
  warnings : List String
deriving DecidableEq, Repr

namespace BackupManager

/-- `BackupManager._generate_backup_filename` (manager.py lines
171-189), with the timestamp string a parameter. -/
def generate_backup_filename (cfg : BackupConfig) (timestamp : String) : String :=
  cfg.name ++ "_" ++ timestamp ++ (if cfg.compression then ".tar.gz" else ".tar")

/-- Sidecar path of `_save_metadata` (lines 232-234):
`backup_file.with_suffix(backup_file.suffix + ".json")`; for the
generated archive names this appends `.json`. -/
def sidecar_path (archive : String) : String := archive ++ ".json"

/-- Failure result built by the `except` handler (manager.py lines
107-116): status failed, error message set, success false.  `warnings`
is never populated anywhere in the source. -/
def failResult (msg : String) : BackupResultM :=
  { success := false, status := .failed, error_message := some msg, warnings := [] }

/-- `BackupManager.create_backup` (manager.py lines 47-116).  Step
order: pre-hook (68-69), filename generation incl. destination mkdir
(72), archive build (76-81), stat/count (84-92, effect-free here),
`_save_metadata` (95), post-hook (98-99), success result (101-105). -/
def create_backup (cfg : BackupConfig) (env : RunEnv) (timestamp : String) :
    BackupResultM × List MgrEv :=
  let preEvs : List MgrEv := if cfg.has_pre_script then [.runScript "pre"] else []
  if cfg.has_pre_script && !env.pre_ok then
    (failResult "pre-backup script failed", preEvs)
  else
    let archive := generate_backup_filename cfg timestamp
    let evs0 := preEvs ++ [.mkdirParents cfg.destination]
    if !env.archive_ok then
      (failResult "archive build failed", evs0 ++ [.writeIncomplete archive])
    else
      let evs1 := evs0 ++ [.writeArchive archive]
      if !env.meta_ok then
        (failResult "metadata persistence failed", evs1)
      else
        let evs2 := evs1 ++ [.writeFile (sidecar_path archive)]
        if cfg.has_post_script && !env.post_ok then
          (failResult "post-backup script failed", evs2 ++ [.runScript "post"])
        else
          ({ success := true, status := .completed, error_message := none, warnings := [] },
           evs2 ++ (if cfg.has_post_script then [.runScript "post"] else []))

/-! ### Restore (`manager.py` lines 297-325) -/

/-- Filesystem events of a `restore_backup` run. -/
inductive RestoreEv where
  | mkdirParents (p : String)
  | extractMember (root member : String)
deriving DecidableEq, Repr

/-- Python `member.name.startswith("/")`. -/
def startsWithSlash (s : String) : Bool :=
  match s.data with
  | '/' :: _ => true
  | _ => false

/-- Python `".." in name` (substring containment of two dots). -/
def hasDotDot : List Char → Bool
  | '.' :: '.' :: _ => true
  | _ :: rest => hasDotDot rest
  | [] => false

/-- Member-name test of the traversal guard at manager.py line 317. -/
def badMemberName (s : String) : Bool := startsWithSlash s || hasDotDot s.data

/-- `BackupManager.restore_backup` (manager.py lines 297-325), with the
archive given by its member names.  `restore_path.mkdir(parents=True,
exist_ok=True)` runs first (line 312); then every member name is
inspected and a `ValueError` aborts (caught at 323, returning false)
before any extraction; otherwise `extractall` extracts every member
under `restore_path`. -/
def restore_backup (members : List String) (restore_path : String) :
    Bool × List RestoreEv :=
  let evs : List RestoreEv := [.mkdirParents restore_path]
  if members.any badMemberName then (false, evs)
  else (true, evs ++ members.map (RestoreEv.extractMember restore_path))

end BackupManager

/-! ## Checksums (`manager.py` lines 237-251, `verifier.py` lines
101-115)

Both classes call `hashlib.sha256` and stream the file in 8192-byte
chunks.  The hash object is abstracted as `HashAlgo` (the two sources
share the same library primitive); the chunked read loop is embedded
literally, once per source copy. -/

/-- An incremental hash: `hashlib.sha256()` gives `init`, `.update` is
`update`, `.hexdigest()` is `digest`. -/
structure HashAlgo where
  State : Type
  init : State
  update : State → List Nat → State
  digest : State → String

/-- The chunk stream of `iter(lambda: f.read(8192), b"")`: successive
8192-byte slices of the file. -/
def readChunks (bytes : List Nat) : List (List Nat) :=
  if h : bytes = [] then []
  else bytes.take 8192 :: readChunks (bytes.drop 8192)
termination_by bytes.length
decreasing_by
  simp only [List.length_drop]
  have hpos : 0 < bytes.length := List.length_pos.mpr h
  omega

namespace BackupManager

/-- `BackupManager._calculate_checksum` (manager.py lines 237-251). -/
def calculate_checksum (A : HashAlgo) (bytes : List Nat) : String :=
  A.digest ((readChunks bytes).foldl A.update A.init)

end BackupManager

namespace BackupVerifier

/-- `BackupVerifier._calculate_checksum` (verifier.py lines 101-115). -/
def calculate_checksum (A : HashAlgo) (bytes : List Nat) : String :=
  A.digest ((readChunks bytes).foldl A.update A.init)

/-! ### Verifier (`verifier.py` lines 25-99) -/

/-- Inputs/outcomes of one `verify_backup` run: does the archive file
exist and how large is it, the sidecar state (`none`: no sidecar file;
`some none`: present but unparseable; `some (some md)`: parsed), the
archive bytes (hashed on demand), the member list (`none`: `TarError`),
and whether the extraction probe would succeed. -/
structure VerifyEnv where
  file_exists : Bool
  size_bytes : Nat
  sidecar : Option (Option BackupMetadata)
  archive_bytes : List Nat
  members : Option (List String)
  extract_ok : Bool

/-- `models.VerificationResult` (fields populated by verify_backup). -/
structure VerificationResultM where
  is_valid : Bool
  can_extract : Bool
  checksum_match : Option Bool
  size_bytes : Nat
  errors : List String
deriving DecidableEq, Repr

/-- `BackupVerifier.verify_backup` (verifier.py lines 25-99).  Returns
the result together with whether the extraction probe
(`_test_extraction`, guarded by `if is_valid:` at line 85) was invoked.
Error strings are abbreviated forms of the source messages. -/
def verify_backup (A : HashAlgo) (env : VerifyEnv) : VerificationResultM × Bool :=
  if !env.file_exists then
    ({ is_valid := false, can_extract := false, checksum_match := none,
       size_bytes := 0, errors := ["Backup file does not exist"] }, false)
  else
    let c1 : List String × Bool × Option Bool :=
      match env.sidecar with
      | none => ([], true, none)
      | some none => (["Failed to verify checksum"], true, none)
      | some (some md) =>
        let actual := calculate_checksum A env.archive_bytes
        if md.checksum == some actual then ([], true, some true)
        else (["Checksum mismatch"], false, some false)
    let c2 : List String × Bool :=
      match env.members with
      | none => (c1.1 ++ ["Invalid tar archive"], false)
      | some ms =>
        if ms.length = 0 then (c1.1 ++ ["Archive is empty"], false)
        else (c1.1, c1.2.1)
    if c2.2 then
      if env.extract_ok then
        ({ is_valid := true, can_extract := true, checksum_match := c1.2.2,
           size_bytes := env.size_bytes, errors := c2.1 }, true)
      else
        ({ is_valid := false, can_extract := false, checksum_match := c1.2.2,
           size_bytes := env.size_bytes, errors := c2.1 ++ ["Failed to extract archive"] }, true)
    else
      ({ is_valid := false, can_extract := false, checksum_match := c1.2.2,
         size_bytes := env.size_bytes, errors := c2.1 }, false)

end BackupVerifier

/-! ## Concrete fixtures for counterexamples and witnesses

The dates: day 354 = 1970-12-21 (Mon), day 355 = 1970-12-22, day 361 =
1970-12-28 (Mon), day 365 = 1971-01-01 (Fri), day 374 = 1971-01-10.
ISO calendar: 1970-12-28 and 1971-01-01 both fall in ISO week 53 of ISO
year 1970, while their calendar years differ. -/

/-- Policy keeping only a 52-week weekly tier (all values permitted by
the pydantic validator, which only rejects negatives). -/
def policyWeekly : RetentionPolicy := ⟨0, 52, 0, 0, 0⟩

/-- Policy with every tier and the floor at zero. -/
def policyZero : RetentionPolicy := ⟨0, 0, 0, 0, 0⟩

/-- Backup created 1970-12-21. -/
def bDec21 : BackupMetadata := ⟨"id-dec21", 354 * 86400, "cfg", 10, none⟩

/-- Backup created 1970-12-22 (same calendar-year/ISO-week key as
`bDec21`). -/
def bDec22 : BackupMetadata := ⟨"id-dec22", 355 * 86400, "cfg", 10, none⟩

/-- Backup created 1970-12-28 (ISO week 53 of ISO year 1970). -/
def bDec28 : BackupMetadata := ⟨"id-dec28", 361 * 86400, "cfg", 10, none⟩

/-- Backup created 1971-01-01 (also ISO week 53 of ISO year 1970, but
calendar year 1971). -/
def bJan01 : BackupMetadata := ⟨"id-jan01", 365 * 86400, "cfg", 10, none⟩

/-- The `datetime.now()` instant 1971-01-10 00:00:00. -/
def nowJan10 : Int := 374 * 86400

/-- Catalog entry whose archive is the compressed `data.tar.gz`. -/
def mdTarGz : BackupMetadata := ⟨"id-gz", 354 * 86400, "cfg", 100, none⟩

/-- A backup directory holding a `.tar.gz` archive and its sidecar. -/
def filesTarGz : List FSFile :=
  [⟨["data", "tar", "gz"], 100, none⟩,
   ⟨["data", "tar", "gz", "json"], 30, some mdTarGz⟩]

/-- A config with compression and only a post-backup hook. -/
def cfgPost : BackupConfig := ⟨"db", "dest", true, false, true⟩

/-- Run outcomes: everything succeeds except the post-backup hook. -/
def envPostFail : RunEnv := ⟨true, true, true, false⟩

/-- Run outcomes: every step succeeds. -/
def envAllOk : RunEnv := ⟨true, true, true, true⟩

/-- A degenerate hash algorithm (constant digest) used to instantiate
the abstract `hashlib.sha256` parameter in witnesses. -/
def hashConst : HashAlgo := ⟨Unit, (), fun s _ => s, fun _ => "d0"⟩

/-- Sidecar metadata whose stored checksum disagrees with `hashConst`'s
digest of any byte stream. -/
def mdBadSum : BackupMetadata := ⟨"id-bad", 0, "cfg", 5, some "bad"⟩

/-- Sidecar metadata whose stored checksum is exactly `hashConst`'s
digest (a freshly created archive). -/
def mdGoodSum : BackupMetadata := ⟨"id-good", 0, "cfg", 5, some "d0"⟩

/-- Verification scenario: archive present and extractable, nonempty
member list, but the sidecar checksum disagrees. -/
def envMismatch : BackupVerifier.VerifyEnv :=
  ⟨true, 64, some (some mdBadSum), [1, 2], some ["member"], true⟩

/-- Verification scenario for a freshly created archive. -/
def envFresh : BackupVerifier.VerifyEnv :=
  ⟨true, 64, some (some mdGoodSum), [1, 2], some ["member"], true⟩

/-- The default retention policy of `models.RetentionPolicy`. -/
def policyDefault : RetentionPolicy := ⟨7, 4, 6, 1, 3⟩

/-! # Theorems -/

namespace RetentionManager

/-! ## Retention-floor lemmas (towards C1) -/

theorem mem_get_backups_in_range {l : List BackupMetadata} {s e : Int} {x : String}
    (h : x ∈ get_backups_in_range l s e) : x ∈ l.map fun b => b.backup_id := by
  simp only [get_backups_in_range, List.mem_toFinset, List.mem_map] at h
  obtain ⟨b, hb, rfl⟩ := h
  exact List.mem_map_of_mem _ (List.mem_of_mem_filter hb)

theorem insertIfAbsent_values_sub {κ : Type} [DecidableEq κ] {k : κ} {v : String}
    {m : List (κ × String)} {x : String}
    (h : x ∈ (insertIfAbsent k v m).map fun p => p.2) :
    x ∈ (m.map fun p => p.2) ∨ x = v := by
  unfold insertIfAbsent at h
  split at h
  · exact Or.inl h
  · simp only [List.map_append, List.mem_append, List.map_cons, List.map_nil,
      List.mem_singleton] at h
    exact h

theorem bucketAux_values_sub {κ : Type} [DecidableEq κ] (key : Int → κ) (s e : Int) :
    ∀ (l : List BackupMetadata) (m : List (κ × String)) (x : String),
      x ∈ (bucketAux key s e l m).map (fun p => p.2) →
      x ∈ (m.map fun p => p.2) ∨ x ∈ l.map fun b => b.backup_id
  | [], _, _, h => Or.inl h
  | b :: rest, m, x, h => by
    rw [bucketAux] at h
    rcases bucketAux_values_sub key s e rest _ x h with h1 | h1
    · split at h1
      · rcases insertIfAbsent_values_sub h1 with h2 | h2
        · exact Or.inl h2
        · right; simp [h2]
      · exact Or.inl h1
    · right
      simp only [List.map_cons, List.mem_cons]
      exact Or.inr h1

theorem mem_bucket_tier {κ : Type} [DecidableEq κ] {key : Int → κ}
    {l : List BackupMetadata} {s e : Int} {x : String}
    (h : x ∈ ((bucketAux key s e l []).map fun p => p.2).toFinset) :
    x ∈ l.map fun b => b.backup_id := by
  rw [List.mem_toFinset] at h
  rcases bucketAux_values_sub key s e l [] x h with h1 | h1
  · simp at h1
  · exact h1

theorem mem_get_weekly_backups {l : List BackupMetadata} {s e : Int} {x : String}
    (h : x ∈ get_weekly_backups l s e) : x ∈ l.map fun b => b.backup_id :=
  mem_bucket_tier h

theorem mem_get_monthly_backups {l : List BackupMetadata} {s e : Int} {x : String}
    (h : x ∈ get_monthly_backups l s e) : x ∈ l.map fun b => b.backup_id :=
  mem_bucket_tier h

theorem mem_get_yearly_backups {l : List BackupMetadata} {s e : Int} {x : String}
    (h : x ∈ get_yearly_backups l s e) : x ∈ l.map fun b => b.backup_id :=
  mem_bucket_tier h

theorem length_filter_mem (S : Finset String) :
    ∀ (l : List BackupMetadata), (l.map fun b => b.backup_id).Nodup →
      (∀ x ∈ S, x ∈ l.map fun b => b.backup_id) →
      (l.filter fun b => decide (b.backup_id ∈ S)).length = S.card
  | [], _, hsub => by
      have hS : S = ∅ := by
        apply Finset.eq_empty_of_forall_not_mem
        intro x hx
        simpa using hsub x hx
      simp [hS]
  | b :: t, hnd, hsub => by
      simp only [List.map_cons, List.nodup_cons] at hnd
      obtain ⟨hb, hndt⟩ := hnd
      by_cases hmem : b.backup_id ∈ S
      · rw [List.filter_cons_of_pos (by simpa using hmem)]
        have hfe : (t.filter fun c => decide (c.backup_id ∈ S)) =
            t.filter fun c => decide (c.backup_id ∈ S.erase b.backup_id) := by
          apply List.filter_congr
          intro c hc
          have hne : c.backup_id ≠ b.backup_id := by
            intro he
            exact hb (he ▸ List.mem_map_of_mem _ hc)
          simp [Finset.mem_erase, hne]
        have hrec := length_filter_mem (S.erase b.backup_id) t hndt ?_
        · have hpos : 0 < S.card := Finset.card_pos.mpr ⟨b.backup_id, hmem⟩
          rw [List.length_cons, hfe, hrec, Finset.card_erase_of_mem hmem]
          omega
        · intro x hx
          have hxS : x ∈ S := Finset.mem_of_mem_erase hx
          have hxne : x ≠ b.backup_id := (Finset.mem_erase.mp hx).1
          have hx2 := hsub x hxS
          simp only [List.map_cons, List.mem_cons] at hx2
          tauto
      · rw [List.filter_cons_of_neg (by simpa using hmem)]
        apply length_filter_mem S t hndt
        intro x hx
        have hx2 := hsub x hx
        simp only [List.map_cons, List.mem_cons] at hx2
        rcases hx2 with h1 | h1
        · exact absurd (h1 ▸ hx) hmem
        · exact h1

theorem card_take_ids (l : List BackupMetadata) (k : Nat)
    (hnd : (l.map fun b => b.backup_id).Nodup) (hk : k ≤ l.length) :
    (((l.take k).map fun b => b.backup_id).toFinset).card = k := by
  rw [List.map_take]
  have hsub : ((l.map fun b => b.backup_id).take k).Nodup :=
    List.Nodup.sublist (List.take_sublist k _) hnd
  rw [List.toFinset_card_of_nodup hsub, List.length_take, List.length_map]
  exact Nat.min_eq_left hk

/-- C1: for every catalog with pairwise-distinct backup ids and every
retention policy, the keep list returned by `apply_retention` has at
least `min(policy.min_backups, N)` entries, where `N` is the catalog
size. -/
theorem apply_retention_keeps_min_floor (policy : RetentionPolicy) (now : Int)
    (backups : List BackupMetadata)
    (h : (backups.map fun b => b.backup_id).Nodup) :
    min policy.min_backups backups.length ≤
      ((apply_retention policy now backups).1).length := by
  unfold apply_retention
  by_cases hle : backups.length ≤ policy.min_backups
  · simp only [if_pos hle]
    exact min_le_right _ _
  · simp only [if_neg hle]
    have hlt : policy.min_backups < backups.length := Nat.lt_of_not_le hle
    have main : ∀ S : Finset String,
        (∀ x ∈ S, x ∈ backups.map fun b => b.backup_id) →
        policy.min_backups ≤ S.card →
        min policy.min_backups backups.length ≤
          (backups.filter fun b => decide (b.backup_id ∈ S)).length := by
      intro S hsub hcard
      rw [length_filter_mem S backups h hsub]
      exact le_trans (min_le_left _ _) hcard
    split
    next htop =>
      apply main
      · intro x hx
        rcases Finset.mem_union.mp hx with hx1 | hx1
        · rcases Finset.mem_union.mp hx1 with hx2 | hx2
          · rcases Finset.mem_union.mp hx2 with hx3 | hx3
            · rcases Finset.mem_union.mp hx3 with hx4 | hx4
              · exact mem_get_backups_in_range hx4
              · exact mem_get_weekly_backups hx4
            · exact mem_get_monthly_backups hx3
          · exact mem_get_yearly_backups hx2
        · rw [List.mem_toFinset] at hx1
          obtain ⟨b, hb, rfl⟩ := List.mem_map.mp hx1
          exact List.mem_map_of_mem _ (List.mem_of_mem_take hb)
      · calc policy.min_backups
            = (((backups.take policy.min_backups).map fun b => b.backup_id).toFinset).card :=
              (card_take_ids backups policy.min_backups h (le_of_lt hlt)).symm
          _ ≤ _ := Finset.card_le_card Finset.subset_union_right
    next htop =>
      apply main
      · intro x hx
        rcases Finset.mem_union.mp hx with hx1 | hx1
        · rcases Finset.mem_union.mp hx1 with hx2 | hx2
          · rcases Finset.mem_union.mp hx2 with hx3 | hx3
            · exact mem_get_backups_in_range hx3
            · exact mem_get_weekly_backups hx3
          · exact mem_get_monthly_backups hx2
        · exact mem_get_yearly_backups hx1
      · exact Nat.le_of_not_lt htop

/-- Witness for C1: the floor theorem applied to a concrete two-element
catalog under the default policy. -/
theorem apply_retention_keeps_min_floor_witness :
    min policyDefault.min_backups ([bDec21, bDec22].length) ≤
      ((apply_retention policyDefault nowJan10 [bDec21, bDec22]).1).length :=
  apply_retention_keeps_min_floor policyDefault nowJan10 [bDec21, bDec22] (by decide)

/-! ## Weekly-tier characterisation (towards C4) -/

theorem any_key_iff {κ : Type} [DecidableEq κ] (m : List (κ × String)) (k : κ) :
    (m.any fun p => decide (p.1 = k)) = true ↔ k ∈ m.map fun p => p.1 := by
  simp only [List.any_eq_true, decide_eq_true_eq, List.mem_map]

theorem insertIfAbsent_values_mono {κ : Type} [DecidableEq κ] {k : κ} {v x : String}
    {m : List (κ × String)} (h : x ∈ m.map fun p => p.2) :
    x ∈ (insertIfAbsent k v m).map fun p => p.2 := by
  unfold insertIfAbsent
  split
  · exact h
  · simp only [List.map_append, List.mem_append]
    exact Or.inl h

theorem bucketAux_values_mono {κ : Type} [DecidableEq κ] (key : Int → κ) (s e : Int) :
    ∀ (l : List BackupMetadata) (m : List (κ × String)) (x : String),
      x ∈ (m.map fun p => p.2) → x ∈ (bucketAux key s e l m).map fun p => p.2
  | [], _, _, h => h
  | b :: rest, m, x, h => by
    rw [bucketAux]
    apply bucketAux_values_mono key s e rest _ x
    split
    · exact insertIfAbsent_values_mono h
    · exact h

/-- Characterisation of the dictionary-bucketing loop on a strictly
descending catalog with distinct ids: an in-range backup's id survives
iff its key is not pre-claimed by the accumulator and it is the newest
in-range catalog entry with its key. -/
theorem bucketAux_mem_sorted {κ : Type} [DecidableEq κ] (key : Int → κ) (s e : Int) :
    ∀ (l : List BackupMetadata) (m : List (κ × String)),
      l.Pairwise (fun a b => b.created_at < a.created_at) →
      (l.map fun b => b.backup_id).Nodup →
      (∀ x ∈ l.map fun b => b.backup_id, x ∉ m.map fun p => p.2) →
      ∀ b ∈ l, s ≤ b.created_at ∧ b.created_at ≤ e →
        (b.backup_id ∈ (bucketAux key s e l m).map (fun p => p.2) ↔
          (key b.created_at ∉ m.map fun p => p.1) ∧
          ∀ b' ∈ l, s ≤ b'.created_at ∧ b'.created_at ≤ e →
            key b'.created_at = key b.created_at → b'.created_at ≤ b.created_at) := by
  intro l
  induction l with
  | nil =>
    intro m _ _ _ b hb
    exact absurd hb (List.not_mem_nil b)
  | cons c rest ih =>
    intro m hsort hnd hdisj b hb hre
    obtain ⟨hc, hsort_rest⟩ := List.pairwise_cons.mp hsort
    simp only [List.map_cons, List.nodup_cons] at hnd
    obtain ⟨hcid, hnd_rest⟩ := hnd
    have hdisj_rest : ∀ x ∈ rest.map fun b => b.backup_id, x ∉ m.map fun p => p.2 := by
      intro x hx
      exact hdisj x (by simp only [List.map_cons, List.mem_cons]; exact Or.inr hx)
    have hcdisj : c.backup_id ∉ m.map fun p => p.2 :=
      hdisj c.backup_id (by simp)
    rw [bucketAux]
    rcases List.mem_cons.mp hb with rfl | hbrest
    · rw [if_pos hre]
      by_cases hkey : key b.created_at ∈ m.map fun p => p.1
      · have hins : insertIfAbsent (key b.created_at) b.backup_id m = m := by
          unfold insertIfAbsent
          rw [if_pos ((any_key_iff m _).mpr hkey)]
        rw [hins]
        constructor
        · intro hmem
          rcases bucketAux_values_sub key s e rest m _ hmem with h1 | h1
          · exact absurd h1 hcdisj
          · exact absurd h1 hcid
        · rintro ⟨hk, -⟩
          exact absurd hkey hk
      · have hins : insertIfAbsent (key b.created_at) b.backup_id m =
            m ++ [(key b.created_at, b.backup_id)] := by
          unfold insertIfAbsent
          rw [if_neg]
          intro hany
          exact hkey ((any_key_iff m _).mp hany)
        rw [hins]
        constructor
        · intro _
          refine ⟨hkey, ?_⟩
          intro b' hb' hr' hk'
          rcases List.mem_cons.mp hb' with rfl | hb'r
          · exact le_refl _
          · exact le_of_lt (hc b' hb'r)
        · intro _
          apply bucketAux_values_mono
          simp
    · by_cases hrc : s ≤ c.created_at ∧ c.created_at ≤ e
      · rw [if_pos hrc]
        by_cases hkeyc : key c.created_at ∈ m.map fun p => p.1
        · have hins : insertIfAbsent (key c.created_at) c.backup_id m = m := by
            unfold insertIfAbsent
            rw [if_pos ((any_key_iff m _).mpr hkeyc)]
          rw [hins, ih m hsort_rest hnd_rest hdisj_rest b hbrest hre]
          constructor
          · rintro ⟨hk, hall⟩
            refine ⟨hk, ?_⟩
            intro b' hb' hr' hkeq
            rcases List.mem_cons.mp hb' with rfl | hb'r
            · exact absurd (hkeq ▸ hkeyc) hk
            · exact hall b' hb'r hr' hkeq
          · rintro ⟨hk, hall⟩
            exact ⟨hk, fun b' hb'r hr' hkeq =>
              hall b' (List.mem_cons_of_mem _ hb'r) hr' hkeq⟩
        · have hins : insertIfAbsent (key c.created_at) c.backup_id m =
              m ++ [(key c.created_at, c.backup_id)] := by
            unfold insertIfAbsent
            rw [if_neg]
            intro hany
            exact hkeyc ((any_key_iff m _).mp hany)
          rw [hins]
          have hdisj2 : ∀ x ∈ rest.map fun b => b.backup_id,
              x ∉ (m ++ [(key c.created_at, c.backup_id)]).map fun p => p.2 := by
            intro x hx
            simp only [List.map_append, List.mem_append, List.map_cons, List.map_nil,
              List.mem_singleton, not_or]
            refine ⟨hdisj_rest x hx, ?_⟩
            intro hxeq
            exact hcid (hxeq ▸ hx)
          rw [ih _ hsort_rest hnd_rest hdisj2 b hbrest hre]
          by_cases hkk : key c.created_at = key b.created_at
          · constructor
            · rintro ⟨hk, -⟩
              exfalso
              apply hk
              simp [hkk]
            · rintro ⟨-, hall⟩
              have h1 := hall c (List.mem_cons_self _ _) hrc hkk
              have h2 := hc b hbrest
              exact absurd h1 (not_le.mpr h2)
          · constructor
            · rintro ⟨hk, hall⟩
              simp only [List.map_append, List.mem_append, List.map_cons, List.map_nil,
                List.mem_singleton, not_or] at hk
              refine ⟨hk.1, ?_⟩
              intro b' hb' hr' hkeq
              rcases List.mem_cons.mp hb' with rfl | hb'r
              · exact absurd hkeq hkk
              · exact hall b' hb'r hr' hkeq
            · rintro ⟨hk1, hall⟩
              refine ⟨?_, fun b' hb'r hr' hkeq =>
                hall b' (List.mem_cons_of_mem _ hb'r) hr' hkeq⟩
              simp only [List.map_append, List.mem_append, List.map_cons, List.map_nil,
                List.mem_singleton, not_or]
              exact ⟨hk1, fun hx => hkk hx.symm⟩
      · rw [if_neg hrc, ih m hsort_rest hnd_rest hdisj_rest b hbrest hre]
        constructor
        · rintro ⟨hk, hall⟩
          refine ⟨hk, ?_⟩
          intro b' hb' hr' hkeq
          rcases List.mem_cons.mp hb' with rfl | hb'r
          · exact absurd hr' hrc
          · exact hall b' hb'r hr' hkeq
        · rintro ⟨hk, hall⟩
          exact ⟨hk, fun b' hb'r hr' hkeq =>
            hall b' (List.mem_cons_of_mem _ hb'r) hr' hkeq⟩

/-- C4 (amended): `apply_retention` does not sort its input — given a
catalog already strictly descending by `created_at` with distinct ids,
the weekly tier keeps, among in-range backups, exactly the newest one
per (calendar-year, ISO-week-number) key. -/
theorem weekly_tier_keeps_newest_per_key (s e : Int) (backups : List BackupMetadata)
    (hsort : backups.Pairwise fun a b => b.created_at < a.created_at)
    (hnd : (backups.map fun b => b.backup_id).Nodup)
    (b : BackupMetadata) (hb : b ∈ backups)
    (hr : s ≤ b.created_at ∧ b.created_at ≤ e) :
    b.backup_id ∈ get_weekly_backups backups s e ↔
      ∀ b' ∈ backups, s ≤ b'.created_at ∧ b'.created_at ≤ e →
        (yearOf b'.created_at, isoWeekOf b'.created_at) =
          (yearOf b.created_at, isoWeekOf b.created_at) →
        b'.created_at ≤ b.created_at := by
  unfold get_weekly_backups
  rw [List.mem_toFinset,
    bucketAux_mem_sorted (fun t => (yearOf t, isoWeekOf t)) s e backups []
      hsort hnd (by simp) b hb hr]
  simp

/-- Witness for the amended C4: on the descending two-element catalog
[1970-12-22, 1970-12-21] (same calendar-year/ISO-week key), the newer
backup is kept by the weekly tier. -/
theorem weekly_tier_keeps_newest_per_key_witness :
    bDec22.backup_id ∈
      get_weekly_backups [bDec22, bDec21] (nowJan10 - 604800 * 52) nowJan10 :=
  (weekly_tier_keeps_newest_per_key (nowJan10 - 604800 * 52) nowJan10
    [bDec22, bDec21] (by decide) (by decide) bDec22 (by decide) (by decide)).mpr
    (by decide)

/-- C4 counterexample: `apply_retention` does not behave as if it first
sorted the catalog descending — the two orders of the same two-element
catalog produce different keep/delete splits (the first-listed backup of
the shared weekly key wins, not the newest) — and the weekly key is not
the (ISO-year, ISO-week) pair: 1971-01-01 and 1970-12-28 share ISO week
53 of ISO year 1970, yet both are kept because their calendar years
differ. -/
theorem apply_retention_order_and_key_counterexample :
    apply_retention policyWeekly nowJan10 [bDec21, bDec22] = ([bDec21], [bDec22]) ∧
    apply_retention policyWeekly nowJan10 [bDec22, bDec21] = ([bDec22], [bDec21]) ∧
    (isoYearOf bJan01.created_at, isoWeekOf bJan01.created_at) =
      (isoYearOf bDec28.created_at, isoWeekOf bDec28.created_at) ∧
    apply_retention policyWeekly nowJan10 [bJan01, bDec28] = ([bJan01, bDec28], []) :=
  ⟨by decide, by decide, by decide, by decide⟩

end RetentionManager

/-! ## Cleanup (C5, C9) -/

/-- C9: `cleanup_old_backups` with `dry_run = true` mutates nothing —
the directory contents are returned unchanged, no archive or sidecar is
deleted, and the statistics report `deleted = 0`,
`total_size_freed = 0`, and `would_delete` equal to the size of the
delete set computed by `apply_retention` on the scanned catalog. -/
theorem cleanup_dry_run_no_mutation (policy : RetentionPolicy) (now : Int)
    (files : List FSFile) (config_name : Option String) :
    RetentionManager.cleanup_old_backups policy now files config_name true =
      .ok (files,
        { kept := (RetentionManager.apply_retention policy now
            (RetentionManager.scan_catalog files config_name)).1.length,
          deleted := 0,
          would_delete := (RetentionManager.apply_retention policy now
            (RetentionManager.scan_catalog files config_name)).2.length,
          total_size_freed := 0 }) := rfl

/-- C5 (code bug): for a `.tar.gz` archive, `_find_backup_file` resolves
the sidecar `data.tar.gz.json` to `data.tar` — `with_suffix("")` strips
the `.gz` — a path that does not exist in the directory.  Consequently a
non-dry-run `cleanup_old_backups` whose delete set contains that entry
deletes neither the archive nor its sidecar and frees zero bytes, while
still reporting `deleted = 1` (the stats use `len(to_delete)`). -/
theorem cleanup_targz_resolution_bug :
    RetentionManager.find_backup_file filesTarGz "id-gz" = some ["data", "tar"] ∧
    (filesTarGz.map fun f => f.name) =
      [["data", "tar", "gz"], ["data", "tar", "gz", "json"]] ∧
    (RetentionManager.apply_retention policyZero nowJan10
      (RetentionManager.scan_catalog filesTarGz none)).2 = [mdTarGz] ∧
    RetentionManager.cleanup_old_backups policyZero nowJan10 filesTarGz none false =
      .ok (filesTarGz, ⟨0, 1, 0, 0⟩) :=
  ⟨by decide, by decide, by decide, by rfl⟩

/-! ## Restore (C6) -/

/-- C6 counterexample: on an archive containing `../../etc/passwd`,
`restore_backup` returns false and extracts nothing, but it is not true
that it performs no filesystem writes — `restore_path.mkdir(parents=True,
exist_ok=True)` has already run before the member names are checked. -/
theorem restore_traversal_counterexample :
    (BackupManager.restore_backup ["../../etc/passwd"] "restore").1 = false ∧
    (BackupManager.restore_backup ["../../etc/passwd"] "restore").2 =
      [BackupManager.RestoreEv.mkdirParents "restore"] ∧
    (BackupManager.restore_backup ["../../etc/passwd"] "restore").2 ≠ [] :=
  ⟨by decide, by decide, by decide⟩

/-- C6 (amended): on an archive with any absolute or
traversal-containing member name, `restore_backup` returns false and
its only filesystem effect is the upfront creation of `restore_path`
(with parents); no archive member is extracted, so nothing from the
archive is written anywhere. -/
theorem restore_traversal_aborts (members : List String) (rp : String)
    (h : members.any BackupManager.badMemberName = true) :
    BackupManager.restore_backup members rp =
      (false, [BackupManager.RestoreEv.mkdirParents rp]) := by
  unfold BackupManager.restore_backup
  rw [if_pos h]

/-- Witness for the amended C6 at a concrete archive. -/
theorem restore_traversal_aborts_witness :
    BackupManager.restore_backup ["../../etc/passwd", "safe.txt"] "r" =
      (false, [BackupManager.RestoreEv.mkdirParents "r"]) :=
  restore_traversal_aborts ["../../etc/passwd", "safe.txt"] "r" (by decide)

/-! ## Backup creation (C2, C3, C7) -/

/-- C2 counterexample: a run in which everything succeeds except the
post-backup hook returns `success = false` (status failed) even though
the sidecar write is in its trace — a failed job can leave a sidecar. -/
theorem failed_job_sidecar_counterexample :
    (BackupManager.create_backup cfgPost envPostFail "ts").1.success = false ∧
    (BackupManager.create_backup cfgPost envPostFail "ts").1.status = .failed ∧
    MgrEv.writeFile (BackupManager.sidecar_path
        (BackupManager.generate_backup_filename cfgPost "ts")) ∈
      (BackupManager.create_backup cfgPost envPostFail "ts").2 :=
  ⟨by decide, by decide, by decide⟩

/-- C2 (amended): a failed `create_backup` run has written the sidecar
if and only if the failure happened in the post-backup hook — that is,
exactly when the pre-hook (if configured), the archive build, and the
metadata persistence all succeeded.  Jobs failing before metadata
persistence leave no sidecar. -/
theorem failed_job_sidecar_only_post_hook (cfg : BackupConfig) (env : RunEnv) (ts : String)
    (hfail : (BackupManager.create_backup cfg env ts).1.success = false) :
    MgrEv.writeFile (BackupManager.sidecar_path
        (BackupManager.generate_backup_filename cfg ts)) ∈
      (BackupManager.create_backup cfg env ts).2 ↔
      ((cfg.has_pre_script = true → env.pre_ok = true) ∧ env.archive_ok = true ∧
        env.meta_ok = true) := by
  obtain ⟨n, d, comp, hpre, hpost⟩ := cfg
  obtain ⟨po, ao, mo, qo⟩ := env
  cases hpre <;> cases po <;> cases ao <;> cases mo <;> cases hpost <;> cases qo <;>
    simp_all [BackupManager.create_backup, BackupManager.generate_backup_filename,
      BackupManager.sidecar_path, BackupManager.failResult]

/-- Witness for the amended C2 at the concrete post-hook-failure run. -/
theorem failed_job_sidecar_only_post_hook_witness :
    MgrEv.writeFile (BackupManager.sidecar_path
        (BackupManager.generate_backup_filename cfgPost "ts")) ∈
      (BackupManager.create_backup cfgPost envPostFail "ts").2 :=
  (failed_job_sidecar_only_post_hook cfgPost envPostFail "ts" (by decide)).mpr
    (by decide)

/-- C3 counterexample: a fully successful `create_backup` run performs no
rename at all; its complete trace is a direct `write_text` of the
sidecar after the archive write — there is no temporary-file-then-rename
persistence step. -/
theorem sidecar_write_not_atomic_counterexample :
    (BackupManager.create_backup cfgPost envAllOk "ts").1.success = true ∧
    ((BackupManager.create_backup cfgPost envAllOk "ts").2.all
      fun ev => !ev.isRenameEv) = true ∧
    (BackupManager.create_backup cfgPost envAllOk "ts").2 =
      [MgrEv.mkdirParents "dest", MgrEv.writeArchive "db_ts.tar.gz",
       MgrEv.writeFile "db_ts.tar.gz.json", MgrEv.runScript "post"] :=
  ⟨by decide, by decide, by decide⟩

/-- C3 (amended): the sidecar is persisted by a single direct write to
`<archive-path>.json` with no temporary file and no rename; whenever the
sidecar write appears in a run's trace it comes immediately after the
completed archive write, so the sidecar only appears after the archive
is fully written, but nothing makes the write itself atomic. -/
theorem sidecar_single_write_after_archive (cfg : BackupConfig) (env : RunEnv) (ts : String)
    (hmem : MgrEv.writeFile (BackupManager.sidecar_path
        (BackupManager.generate_backup_filename cfg ts)) ∈
      (BackupManager.create_backup cfg env ts).2) :
    ∃ l1 l3,
      (BackupManager.create_backup cfg env ts).2 =
        l1 ++ [MgrEv.writeArchive (BackupManager.generate_backup_filename cfg ts),
               MgrEv.writeFile (BackupManager.sidecar_path
                 (BackupManager.generate_backup_filename cfg ts))] ++ l3 ∧
      MgrEv.writeFile (BackupManager.sidecar_path
        (BackupManager.generate_backup_filename cfg ts)) ∉ l1 ∧
      MgrEv.writeFile (BackupManager.sidecar_path
        (BackupManager.generate_backup_filename cfg ts)) ∉ l3 ∧
      ((BackupManager.create_backup cfg env ts).2.all fun ev => !ev.isRenameEv) = true := by
  by_cases h1 : cfg.has_pre_script && !env.pre_ok
  · exfalso
    revert hmem
    simp only [BackupManager.create_backup, if_pos h1]
    split <;> simp
  · by_cases h2 : env.archive_ok
    · by_cases h3 : env.meta_ok
      · by_cases h4 : cfg.has_post_script && !env.post_ok
        · refine ⟨(if cfg.has_pre_script then [MgrEv.runScript "pre"] else []) ++
              [MgrEv.mkdirParents cfg.destination], [MgrEv.runScript "post"],
              ?_, ?_, ?_, ?_⟩
          · simp [BackupManager.create_backup, h1, h2, h3, h4]
          · split <;> simp
          · simp
          · simp only [BackupManager.create_backup, h1, h2, h3, h4]
            cases hp : cfg.has_pre_script <;>
              simp [hp, MgrEv.isRenameEv]
        · refine ⟨(if cfg.has_pre_script then [MgrEv.runScript "pre"] else []) ++
              [MgrEv.mkdirParents cfg.destination],
              (if cfg.has_post_script then [MgrEv.runScript "post"] else []),
              ?_, ?_, ?_, ?_⟩
          · simp [BackupManager.create_backup, h1, h2, h3, h4]
          · split <;> simp
          · split <;> simp
          · simp only [BackupManager.create_backup, h1, h2, h3, h4]
            cases hp : cfg.has_pre_script <;> cases hq : cfg.has_post_script <;>
              simp [hp, hq, MgrEv.isRenameEv]
      · exfalso
        revert hmem
        simp only [BackupManager.create_backup, if_neg h1]
        simp [h2, h3]
    · exfalso
      revert hmem
      simp only [BackupManager.create_backup, if_neg h1]
      simp [h2]

/-- Witness for the amended C3 at the concrete all-successful run. -/
theorem sidecar_single_write_after_archive_witness :
    ∃ l1 l3,
      (BackupManager.create_backup cfgPost envAllOk "ts").2 =
        l1 ++ [MgrEv.writeArchive (BackupManager.generate_backup_filename cfgPost "ts"),
               MgrEv.writeFile (BackupManager.sidecar_path
                 (BackupManager.generate_backup_filename cfgPost "ts"))] ++ l3 ∧
      MgrEv.writeFile (BackupManager.sidecar_path
        (BackupManager.generate_backup_filename cfgPost "ts")) ∉ l1 ∧
      MgrEv.writeFile (BackupManager.sidecar_path
        (BackupManager.generate_backup_filename cfgPost "ts")) ∉ l3 ∧
      ((BackupManager.create_backup cfgPost envAllOk "ts").2.all
        fun ev => !ev.isRenameEv) = true :=
  sidecar_single_write_after_archive cfgPost envAllOk "ts" (by decide)

/-- C7 counterexample: when the post-backup hook fails after archive and
sidecar were produced, the returned result has `success = false`,
status failed, and an empty `warnings` list — not `success = true` with
a warning as the claim states. -/
theorem post_hook_failure_counterexample :
    (BackupManager.create_backup cfgPost envPostFail "ts").1 =
      { success := false, status := .failed,
        error_message := some "post-backup script failed", warnings := [] } ∧
    MgrEv.writeArchive "db_ts.tar.gz" ∈
      (BackupManager.create_backup cfgPost envPostFail "ts").2 ∧
    MgrEv.writeFile "db_ts.tar.gz.json" ∈
      (BackupManager.create_backup cfgPost envPostFail "ts").2 :=
  ⟨by decide, by decide, by decide⟩

/-- C7 (amended): a post-backup hook failure after a fully successful
archive build and metadata persistence makes the whole job report
failure — `success = false`, status failed, `error_message` set, and
`warnings` empty — while the already-written archive and sidecar remain
in the run's trace (they are not removed). -/
theorem post_hook_failure_marks_failed (cfg : BackupConfig) (env : RunEnv) (ts : String)
    (hpre : cfg.has_pre_script = true → env.pre_ok = true)
    (har : env.archive_ok = true) (hmeta : env.meta_ok = true)
    (hpost : cfg.has_post_script = true) (hfail : env.post_ok = false) :
    (BackupManager.create_backup cfg env ts).1.success = false ∧
    (BackupManager.create_backup cfg env ts).1.status = .failed ∧
    (BackupManager.create_backup cfg env ts).1.error_message.isSome = true ∧
    (BackupManager.create_backup cfg env ts).1.warnings = [] ∧
    MgrEv.writeArchive (BackupManager.generate_backup_filename cfg ts) ∈
      (BackupManager.create_backup cfg env ts).2 ∧
    MgrEv.writeFile (BackupManager.sidecar_path
        (BackupManager.generate_backup_filename cfg ts)) ∈
      (BackupManager.create_backup cfg env ts).2 := by
  obtain ⟨n, d, comp, hp, hq⟩ := cfg
  obtain ⟨po, ao, mo, qo⟩ := env
  cases hp <;> cases po <;>
    simp_all [BackupManager.create_backup, BackupManager.generate_backup_filename,
      BackupManager.sidecar_path, BackupManager.failResult]

/-- Witness for the amended C7 at the concrete post-hook-failure run. -/
theorem post_hook_failure_marks_failed_witness :
    (BackupManager.create_backup cfgPost envPostFail "ts").1.success = false ∧
    (BackupManager.create_backup cfgPost envPostFail "ts").1.status = .failed ∧
    (BackupManager.create_backup cfgPost envPostFail "ts").1.error_message.isSome = true ∧
    (BackupManager.create_backup cfgPost envPostFail "ts").1.warnings = [] ∧
    MgrEv.writeArchive (BackupManager.generate_backup_filename cfgPost "ts") ∈
      (BackupManager.create_backup cfgPost envPostFail "ts").2 ∧
    MgrEv.writeFile (BackupManager.sidecar_path
        (BackupManager.generate_backup_filename cfgPost "ts")) ∈
      (BackupManager.create_backup cfgPost envPostFail "ts").2 :=
  post_hook_failure_marks_failed cfgPost envPostFail "ts" (by decide) (by decide)
    (by decide) (by decide) (by decide)

/-! ## Verification (C8, C10) -/

/-- C8 counterexample: with a readable sidecar whose checksum disagrees,
the mismatch is recorded, but the extraction probe is not performed
(`_test_extraction` is guarded by `if is_valid:`): the probe flag is
false and `can_extract` stays false even though extraction would have
succeeded (`envMismatch.extract_ok = true`). -/
theorem verify_mismatch_probe_counterexample :
    (BackupVerifier.verify_backup hashConst envMismatch).2 = false ∧
    (BackupVerifier.verify_backup hashConst envMismatch).1 =
      { is_valid := false, can_extract := false, checksum_match := some false,
        size_bytes := 64, errors := ["Checksum mismatch"] } ∧
    envMismatch.extract_ok = true :=
  ⟨by decide, by decide, by decide⟩

/-- C8 (amended): a checksum mismatch is recorded as an error without
aborting — the structural member enumeration still runs and its errors
accumulate — but the extraction probe is skipped (it only runs when all
previous checks passed), so `can_extract` remains false and the result
is invalid. -/
theorem verify_mismatch_continues (A : HashAlgo) (env : BackupVerifier.VerifyEnv)
    (md : BackupMetadata)
    (hex : env.file_exists = true)
    (hsc : env.sidecar = some (some md))
    (hmm : (md.checksum ==
      some (BackupVerifier.calculate_checksum A env.archive_bytes)) = false) :
    (BackupVerifier.verify_backup A env).1.checksum_match = some false ∧
    "Checksum mismatch" ∈ (BackupVerifier.verify_backup A env).1.errors ∧
    (BackupVerifier.verify_backup A env).2 = false ∧
    (BackupVerifier.verify_backup A env).1.can_extract = false ∧
    (BackupVerifier.verify_backup A env).1.is_valid = false ∧
    (env.members = none →
      "Invalid tar archive" ∈ (BackupVerifier.verify_backup A env).1.errors) ∧
    (∀ ms, env.members = some ms → ms.length = 0 →
      "Archive is empty" ∈ (BackupVerifier.verify_backup A env).1.errors) := by
  rcases hm : env.members with _ | ms
  · simp [BackupVerifier.verify_backup, hex, hsc, hmm, hm]
  · rcases Nat.eq_zero_or_pos ms.length with hl | hl
    · simp [BackupVerifier.verify_backup, hex, hsc, hmm, hm, hl]
    · simp [BackupVerifier.verify_backup, hex, hsc, hmm, hm, List.length_pos.mp hl]

/-- Witness for the amended C8 at the concrete mismatch scenario. -/
theorem verify_mismatch_continues_witness :
    (BackupVerifier.verify_backup hashConst envMismatch).1.checksum_match = some false ∧
    "Checksum mismatch" ∈ (BackupVerifier.verify_backup hashConst envMismatch).1.errors ∧
    (BackupVerifier.verify_backup hashConst envMismatch).2 = false ∧
    (BackupVerifier.verify_backup hashConst envMismatch).1.can_extract = false ∧
    (BackupVerifier.verify_backup hashConst envMismatch).1.is_valid = false :=
  have h := verify_mismatch_continues hashConst envMismatch mdBadSum rfl rfl (by decide)
  ⟨h.1, h.2.1, h.2.2.1, h.2.2.2.1, h.2.2.2.2.1⟩

/-- C10: the creator's and the verifier's checksum computations are the
same function (both stream the file in 8192-byte chunks into the same
hash primitive), and consequently a sidecar created with the manager's
checksum of the archive bytes verifies with `checksum_match = true`. -/
theorem checksum_functions_agree (A : HashAlgo) (bytes : List Nat)
    (env : BackupVerifier.VerifyEnv) (md : BackupMetadata)
    (hex : env.file_exists = true)
    (hsc : env.sidecar = some (some md))
    (hck : md.checksum = some (BackupManager.calculate_checksum A env.archive_bytes)) :
    BackupManager.calculate_checksum A bytes = BackupVerifier.calculate_checksum A bytes ∧
    (BackupVerifier.verify_backup A env).1.checksum_match = some true := by
  have heq : BackupManager.calculate_checksum A env.archive_bytes =
      BackupVerifier.calculate_checksum A env.archive_bytes := rfl
  refine ⟨rfl, ?_⟩
  rw [heq] at hck
  rcases hm : env.members with _ | ms
  · simp [BackupVerifier.verify_backup, hex, hsc, hck, hm]
  · rcases Nat.eq_zero_or_pos ms.length with hl | hl
    · simp [BackupVerifier.verify_backup, hex, hsc, hck, hm, hl]
    · rcases he : env.extract_ok with _ | _
      · simp [BackupVerifier.verify_backup, hex, hsc, hck, hm,
          List.length_pos.mp hl, he]
      · simp [BackupVerifier.verify_backup, hex, hsc, hck, hm,
          List.length_pos.mp hl, he]

/-- Witness for C10 with a concrete hash algorithm and a fresh-archive
verification scenario. -/
theorem checksum_functions_agree_witness :
    BackupManager.calculate_checksum hashConst [1, 2, 3] =
      BackupVerifier.calculate_checksum hashConst [1, 2, 3] ∧
    (BackupVerifier.verify_backup hashConst envFresh).1.checksum_match = some true :=
  checksum_functions_agree hashConst [1, 2, 3] envFresh mdGoodSum rfl rfl
    (by simp [mdGoodSum, envFresh, BackupManager.calculate_checksum, readChunks, hashConst])

end BackupEngine
